import Mathlib

/-!
Verification development for the nucypher-core message layer
(crates nucypher-core and nucypher-core-wasm).

The development shallowly embeds the Rust sources:
  - src/nucypher-core/src/dkg.rs (ThresholdDecryptionRequest/Response,
    brands, version dispatch);
  - src/nucypher-core-wasm/src/lib.rs (the WASM bindings: address factory,
    byte-array input gate, the constructors that unwrap fallible parses).

Code of the repository that is only called from these files (the
versioning envelope, HRAC, TreasureMap, FleetStateChecksum, Address and
the PRE engine) is modelled from the specification; every such definition
carries a doc comment starting with the words Modelled from the spec.

Machine bytes are modelled as Nat; a serialized stream is a List Nat of
tokens, each token one atom of the self-describing field encoding.
-/

namespace NucypherCore

/-- A serialized stream: a list of byte-sized tokens. -/
abbrev Bytes := List Nat

/-- Modelled from the spec: decryption conditions, a blob of bytes
(dkg.rs stores an opaque Conditions value). -/
structure Conditions where
  blob : Bytes
deriving DecidableEq, Repr

/-- Modelled from the spec: condition-evaluation context, a blob of bytes
(dkg.rs stores an opaque Context value). -/
structure Context where
  blob : Bytes
deriving DecidableEq, Repr

/-- The ferveo variant enum from dkg.rs. -/
inductive FerveoVariant where
  | SIMPLE
  | PRECOMPUTED
deriving DecidableEq, Repr

/-- ThresholdDecryptionRequest from dkg.rs: ritual id (u16), ciphertext
bytes, optional conditions, optional context, and the ferveo variant. -/
structure ThresholdDecryptionRequest where
  ritual_id : Nat
  ciphertext : Bytes
  conditions : Option Conditions
  context : Option Context
  variant : FerveoVariant
deriving DecidableEq, Repr

/-- ThresholdDecryptionResponse from dkg.rs: an opaque decryption share. -/
structure ThresholdDecryptionResponse where
  decryption_share : Bytes
deriving DecidableEq, Repr

/-- The (major, minor) version pair of ThresholdDecryptionRequest
(dkg.rs line 53). -/
def ThresholdDecryptionRequest.version : Nat × Nat := (1, 0)

/-- The 4-byte ASCII brand of ThresholdDecryptionRequest, the bytes of
the string ThRq (dkg.rs line 58). -/
def ThresholdDecryptionRequest.brand : Bytes := [0x54, 0x68, 0x52, 0x71]

/-- The (major, minor) version pair of ThresholdDecryptionResponse
(dkg.rs line 90). -/
def ThresholdDecryptionResponse.version : Nat × Nat := (1, 0)

/-- The 4-byte ASCII brand of ThresholdDecryptionResponse, the bytes of
the string ThRs (dkg.rs line 95). -/
def ThresholdDecryptionResponse.brand : Bytes := [0x54, 0x68, 0x52, 0x73]

/-- Modelled from the spec: one field of the messagepack payload holding a
byte string, written as a length token followed by the raw bytes (the
compact self-describing encoding of a bin object). -/
def encBytes (b : Bytes) : Bytes := b.length :: b

/-- Modelled from the spec: an optional byte-string field, a presence tag
followed by the encoded value when present. -/
def encOpt (o : Option Bytes) : Bytes :=
  match o with
  | none => [0]
  | some b => 1 :: encBytes b

/-- Numeric tag of a ferveo variant in the payload encoding. -/
def FerveoVariant.tag : FerveoVariant → Nat
  | .SIMPLE => 0
  | .PRECOMPUTED => 1

/-- Modelled from the spec: messagepack serialization of a
ThresholdDecryptionRequest, the named fields in declaration order. -/
def ThresholdDecryptionRequest.unversioned_to_bytes
    (x : ThresholdDecryptionRequest) : Bytes :=
  x.ritual_id :: (encBytes x.ciphertext
    ++ encOpt (x.conditions.map Conditions.blob)
    ++ encOpt (x.context.map Context.blob)
    ++ [x.variant.tag])

/-- Modelled from the spec: messagepack serialization of a
ThresholdDecryptionResponse. -/
def ThresholdDecryptionResponse.unversioned_to_bytes
    (x : ThresholdDecryptionResponse) : Bytes :=
  encBytes x.decryption_share

/-- Reads a length-prefixed byte string, returning the value and the
remaining stream. -/
def decBytes (s : Bytes) : Option (Bytes × Bytes) :=
  match s with
  | [] => none
  | n :: rest =>
    if n ≤ rest.length then some (rest.take n, rest.drop n) else none

/-- Reads an optional byte-string field. -/
def decOpt (s : Bytes) : Option (Option Bytes × Bytes) :=
  match s with
  | 0 :: rest => some (none, rest)
  | 1 :: rest => (decBytes rest).map (fun p => (some p.1, p.2))
  | _ => none

/-- Reads a ferveo variant tag. -/
def decVariant (s : Bytes) : Option (FerveoVariant × Bytes) :=
  match s with
  | 0 :: rest => some (.SIMPLE, rest)
  | 1 :: rest => some (.PRECOMPUTED, rest)
  | _ => none

/-- Modelled from the spec: messagepack deserialization of a
ThresholdDecryptionRequest payload; a FieldError message on malformed or
trailing bytes. -/
def ThresholdDecryptionRequest.messagepack_deserialize (s : Bytes) :
    Except String ThresholdDecryptionRequest :=
  match s with
  | [] => .error "missing ritual_id"
  | rid :: rest =>
    match decBytes rest with
    | none => .error "malformed ciphertext"
    | some (ct, rest1) =>
      match decOpt rest1 with
      | none => .error "malformed conditions"
      | some (conds, rest2) =>
        match decOpt rest2 with
        | none => .error "malformed context"
        | some (ctx, rest3) =>
          match decVariant rest3 with
          | none => .error "malformed variant"
          | some (v, rest4) =>
            if rest4 = [] then
              .ok ⟨rid, ct, conds.map Conditions.mk, ctx.map Context.mk, v⟩
            else .error "trailing bytes"

/-- Modelled from the spec: messagepack deserialization of a
ThresholdDecryptionResponse payload. -/
def ThresholdDecryptionResponse.messagepack_deserialize (s : Bytes) :
    Except String ThresholdDecryptionResponse :=
  match decBytes s with
  | none => .error "malformed decryption_share"
  | some (sh, rest) =>
    if rest = [] then .ok ⟨sh⟩ else .error "trailing bytes"

/-- Minor-version dispatch of ThresholdDecryptionRequest (dkg.rs lines
65 to 71): a parser exists only for minor version 0. -/
def ThresholdDecryptionRequest.unversioned_from_bytes (minor_version : Nat)
    (bytes : Bytes) : Option (Except String ThresholdDecryptionRequest) :=
  if minor_version = 0 then
    some (ThresholdDecryptionRequest.messagepack_deserialize bytes)
  else
    none

/-- Minor-version dispatch of ThresholdDecryptionResponse (dkg.rs lines
102 to 108): a parser exists only for minor version 0. -/
def ThresholdDecryptionResponse.unversioned_from_bytes (minor_version : Nat)
    (bytes : Bytes) : Option (Except String ThresholdDecryptionResponse) :=
  if minor_version = 0 then
    some (ThresholdDecryptionResponse.messagepack_deserialize bytes)
  else
    none

/-- Modelled from the spec: the deserialization error taxonomy of the
versioning envelope (FormatError for brand mismatch or truncation,
VersionError for unsupported major or too-new minor, FieldError for a
malformed payload field). -/
inductive DeserializationError where
  | FormatError
  | VersionError
  | FieldError (msg : String)
deriving DecidableEq, Repr

/-- Modelled from the spec: a u16 written little-endian as two bytes. -/
def u16le (n : Nat) : Bytes := [n % 256, n / 256 % 256]

/-- Modelled from the spec: the wire header, brand bytes followed by the
little-endian major and minor version. -/
def headerEnc (brand : Bytes) (major minor : Nat) : Bytes :=
  brand ++ u16le major ++ u16le minor

/-- Modelled from the spec: the generic envelope decoder of the versioning
module. It reads the 4 brand bytes and the two u16 version fields,
rejects a wrong brand with FormatError, a wrong major or an unknown minor
with VersionError, and surfaces payload parse failures as FieldError. -/
def envelope_from_bytes {α : Type} (brand : Bytes) (major : Nat)
    (dispatch : Nat → Bytes → Option (Except String α)) (s : Bytes) :
    Except DeserializationError α :=
  match s with
  | b0 :: b1 :: b2 :: b3 :: m0 :: m1 :: n0 :: n1 :: payload =>
    if [b0, b1, b2, b3] ≠ brand then .error .FormatError
    else if m0 + 256 * m1 ≠ major then .error .VersionError
    else
      match dispatch (n0 + 256 * n1) payload with
      | none => .error .VersionError
      | some (.error e) => .error (.FieldError e)
      | some (.ok x) => .ok x
  | _ => .error .FormatError

/-- Modelled from the spec: full serialization of a
ThresholdDecryptionRequest, header followed by the messagepack payload. -/
def ThresholdDecryptionRequest.to_bytes (x : ThresholdDecryptionRequest) :
    Bytes :=
  headerEnc ThresholdDecryptionRequest.brand
    ThresholdDecryptionRequest.version.1
    ThresholdDecryptionRequest.version.2 ++ x.unversioned_to_bytes

/-- Modelled from the spec: full deserialization of a
ThresholdDecryptionRequest through the envelope decoder, dispatching on
the minor version as dkg.rs does. -/
def ThresholdDecryptionRequest.from_bytes (s : Bytes) :
    Except DeserializationError ThresholdDecryptionRequest :=
  envelope_from_bytes ThresholdDecryptionRequest.brand
    ThresholdDecryptionRequest.version.1
    ThresholdDecryptionRequest.unversioned_from_bytes s

/-- Modelled from the spec: full serialization of a
ThresholdDecryptionResponse. -/
def ThresholdDecryptionResponse.to_bytes (x : ThresholdDecryptionResponse) :
    Bytes :=
  headerEnc ThresholdDecryptionResponse.brand
    ThresholdDecryptionResponse.version.1
    ThresholdDecryptionResponse.version.2 ++ x.unversioned_to_bytes

/-- Modelled from the spec: full deserialization of a
ThresholdDecryptionResponse through the envelope decoder. -/
def ThresholdDecryptionResponse.from_bytes (s : Bytes) :
    Except DeserializationError ThresholdDecryptionResponse :=
  envelope_from_bytes ThresholdDecryptionResponse.brand
    ThresholdDecryptionResponse.version.1
    ThresholdDecryptionResponse.unversioned_from_bytes s

/-- Modelled from the spec: a public key of the PRE engine, carried as its
serialized bytes. -/
structure PublicKey where
  data : Bytes
deriving DecidableEq, Repr

/-- Modelled from the spec: a secret key of the PRE engine. -/
structure SecretKey where
  data : Bytes
deriving DecidableEq, Repr

/-- Modelled from the spec: the public key matching a secret key in the
ideal key model; injective by construction. -/
def SecretKey.publicKey (sk : SecretKey) : PublicKey := ⟨0 :: sk.data⟩

/-- Modelled from the spec: a signer, identified by its verifying key. -/
structure Signer where
  verifying_key : PublicKey
deriving DecidableEq, Repr

/-- Modelled from the spec: an ideal signature, which records the
verifying key of its maker and the signed message, so that it verifies
exactly against that key and message. -/
structure Signature where
  by_key : PublicKey
  message : Bytes
deriving DecidableEq, Repr

/-- Modelled from the spec: a 20-byte node or account identifier. -/
abbrev Address := {l : Bytes // l.length = 20}

/-- Modelled from the spec: the validated Address factory of the core
crate; accepts exactly 20-byte slices and copies them verbatim, never
truncating or padding. -/
def Address.from_slice (s : Bytes) : Option Address :=
  if h : s.length = 20 then some ⟨s, h⟩ else none

/-- The WASM address factory from lib.rs lines 59 to 63: wraps
Address.from_slice and turns a rejection into a JS error value. -/
def try_make_address (address_bytes : Bytes) : Except String Address :=
  match Address.from_slice address_bytes with
  | some a => .ok a
  | none => .error "Invalid address"

/-- A JS value crossing the WASM boundary: a Uint8Array with its byte
contents, a serialized capsule object, or some other value. -/
inductive JsValue where
  | uint8array (bytes : Bytes)
  | capsuleObj (data : Bytes)
  | other (tag : Nat)
deriving DecidableEq, Repr

/-- The dyn_ref cast to Uint8Array followed by to_vec, as used inside
js_value_to_u8_vec. -/
def JsValue.asUint8Array : JsValue → Option Bytes
  | .uint8array b => some b
  | _ => none

/-- js_value_to_u8_vec from lib.rs lines 69 to 84: keep the elements that
cast to Uint8Array, then fail if any element was dropped. -/
def js_value_to_u8_vec (array_of_uint8_arrays : List JsValue) :
    Except String (List Bytes) :=
  let vec_vec_u8 := array_of_uint8_arrays.filterMap JsValue.asUint8Array
  if vec_vec_u8.length ≠ array_of_uint8_arrays.length then
    .error "Invalid Array of Uint8Arrays."
  else .ok vec_vec_u8

/-- Modelled from the spec: the fixed cryptographic hash, with a 32-byte
output, used by the HRAC derivation. -/
def modelHash (input : Bytes) : Bytes :=
  (List.range 32).map fun i =>
    (input.foldl (fun acc b => acc * 257 + b + 1) (i + 1)) % 256

/-- The 16-byte policy identifier. -/
structure HRAC where
  bytes : Bytes
deriving DecidableEq, Repr

/-- Modelled from the spec: HRAC construction, the first 16 bytes of the
hash of publisher verifying key, delegate verifying key and label. -/
def HRAC.new (publisher_verifying_key bob_verifying_key : PublicKey)
    (label : Bytes) : HRAC :=
  ⟨(modelHash (publisher_verifying_key.data ++ bob_verifying_key.data
      ++ label)).take 16⟩

/-- The toBytes accessor of HRAC (lib.rs lines 196 to 199). -/
def HRAC.to_bytes (h : HRAC) : Bytes := h.bytes

/-- Injective encoding of a byte list into one Nat, used as a canonical
sort key and as the ideal-digest building block. -/
def natListKey : Bytes → Nat
  | [] => 0
  | b :: t => Nat.pair b (natListKey t) + 1

/-- Modelled from the spec: a verified key fragment of the PRE engine. -/
structure VerifiedKeyFrag where
  data : Bytes
deriving DecidableEq, Repr

/-- Modelled from the spec: an encrypted key fragment records the
recipient key it was encrypted under, the bound hrac, the encrypted
fragment and the publisher signature over the hrac and the fragment. -/
structure EncryptedKeyFrag where
  recipient_key : PublicKey
  hrac : HRAC
  kfrag_ciphertext : Bytes
  signature : Signature
deriving DecidableEq, Repr

/-- Modelled from the spec: authenticated encryption of a verified kfrag
under the recipient key, bound to the hrac and signed by the signer. -/
def EncryptedKeyFrag.new (signer : Signer) (recipient_key : PublicKey)
    (hrac : HRAC) (verified_kfrag : VerifiedKeyFrag) : EncryptedKeyFrag :=
  ⟨recipient_key, hrac, verified_kfrag.data,
    ⟨signer.verifying_key, hrac.bytes ++ verified_kfrag.data⟩⟩

/-- Modelled from the spec: the policy-layer error raised when a treasure
map threshold exceeds the number of destinations. -/
inductive PolicyError where
  | thresholdTooLarge
deriving DecidableEq, Repr

/-- The policy manifest: threshold, policy identity and the ordered
address-to-encrypted-kfrag mapping. -/
structure TreasureMap where
  threshold : Nat
  hrac : HRAC
  policy_encrypting_key : PublicKey
  publisher_verifying_key : PublicKey
  destinations : List (Address × EncryptedKeyFrag)
deriving DecidableEq

/-- Comparison of destination entries by the canonical key of their
address, giving the address-sorted destination order. -/
def destLE (p q : Address × EncryptedKeyFrag) : Prop :=
  natListKey p.1.val ≤ natListKey q.1.val

instance : DecidableRel destLE := fun p q =>
  inferInstanceAs (Decidable (natListKey p.1.val ≤ natListKey q.1.val))

/-- Modelled from the spec: TreasureMap construction; one encrypted kfrag
per assignment, destinations held in address-sorted order, failing with a
PolicyError when the threshold exceeds the number of assignments and
producing no partial object in that case. -/
def TreasureMap.new (signer : Signer) (hrac : HRAC)
    (policy_encrypting_key : PublicKey)
    (assigned_kfrags : List (Address × (PublicKey × VerifiedKeyFrag)))
    (threshold : Nat) : Except PolicyError TreasureMap :=
  if threshold ≤ assigned_kfrags.length then
    .ok
      { threshold := threshold
        hrac := hrac
        policy_encrypting_key := policy_encrypting_key
        publisher_verifying_key := signer.verifying_key
        destinations :=
          List.insertionSort destLE
            (assigned_kfrags.map fun p =>
              (p.1, EncryptedKeyFrag.new signer p.2.1 hrac p.2.2)) }
  else .error .thresholdTooLarge

/-- An opaque PRE capsule, carried as its serialized bytes. -/
structure Capsule where
  data : Bytes
deriving DecidableEq, Repr

/-- Modelled from the spec: capsule deserialization of the PRE engine,
which rejects byte strings that are not a well-formed fixed-size capsule
serialization. -/
def Capsule.from_bytes (b : Bytes) : Option Capsule :=
  if b.length = 98 then some ⟨b⟩ else none

/-- Modelled from the spec: a verified capsule fragment; it records the
capsule it was produced for, the four keys binding it, the threshold of
the key split it came from, and the share payload. -/
structure VerifiedCapsuleFrag where
  capsule : Capsule
  verifying_key : PublicKey
  proxy_key : PublicKey
  policy_encrypting_key : PublicKey
  bob_encrypting_key : PublicKey
  threshold : Nat
  share : Bytes
deriving DecidableEq, Repr

/-- Modelled from the spec: serialization of a verified capsule fragment,
the provenance fields and the share, each length-prefixed. -/
def VerifiedCapsuleFrag.to_verified_bytes (f : VerifiedCapsuleFrag) :
    Bytes :=
  encBytes f.capsule.data ++ encBytes f.verifying_key.data
    ++ encBytes f.proxy_key.data ++ encBytes f.policy_encrypting_key.data
    ++ encBytes f.bob_encrypting_key.data ++ (f.threshold :: encBytes f.share)

/-- Modelled from the spec: fragment deserialization of the PRE engine,
which rejects malformed byte strings. -/
def VerifiedCapsuleFrag.from_verified_bytes (b : Bytes) :
    Option VerifiedCapsuleFrag :=
  match decBytes b with
  | none => none
  | some (cap, r1) =>
    match decBytes r1 with
    | none => none
    | some (vk, r2) =>
      match decBytes r2 with
      | none => none
      | some (uk, r3) =>
        match decBytes r3 with
        | none => none
        | some (pk, r4) =>
          match decBytes r4 with
          | none => none
          | some (bk, r5) =>
            match r5 with
            | [] => none
            | th :: r6 =>
              match decBytes r6 with
              | none => none
              | some (sh, r7) =>
                if r7 = [] then
                  some ⟨⟨cap⟩, ⟨vk⟩, ⟨uk⟩, ⟨pk⟩, ⟨bk⟩, th, sh⟩
                else none

/-- Modelled from the spec: verification of one fragment against its
positional capsule and the four supplied keys. -/
def VerifiedCapsuleFrag.verifies (f : VerifiedCapsuleFrag) (c : Capsule)
    (alice ursula policy bob : PublicKey) : Bool :=
  decide (f.capsule = c) && decide (f.verifying_key = alice)
    && decide (f.proxy_key = ursula)
    && decide (f.policy_encrypting_key = policy)
    && decide (f.bob_encrypting_key = bob)

/-- Modelled from the spec: the crypto-layer verification error. -/
inductive CryptoError where
  | verificationFailed
deriving DecidableEq, Repr

/-- Canonical batch message a proxy signs over the capsules and the
produced fragments. -/
def reencryptionBatchMessage (capsules : List Capsule)
    (cfrags : List VerifiedCapsuleFrag) : Bytes :=
  [Nat.pair (natListKey (capsules.map fun c => natListKey c.data))
    (natListKey (cfrags.map fun f => natListKey f.to_verified_bytes))]

/-- The signed fragment batch a proxy returns. -/
structure ReencryptionResponse where
  cfrags : List VerifiedCapsuleFrag
  signature : Signature
deriving DecidableEq

/-- Modelled from the spec: construction of a reencryption response, the
fragment batch signed by the proxy over the capsules and fragments. -/
def ReencryptionResponse.new (signer : Signer) (capsules : List Capsule)
    (vcfrags : List VerifiedCapsuleFrag) : ReencryptionResponse :=
  ⟨vcfrags, ⟨signer.verifying_key, reencryptionBatchMessage capsules vcfrags⟩⟩

/-- Modelled from the spec: all-or-nothing verification of a reencryption
response; the fragment count must match the capsule count, the batch
signature must verify against the proxy key, and every fragment must
verify against its positional capsule; any failure rejects the whole
response with a CryptoError and no subset of fragments is returned. -/
def ReencryptionResponse.verify (r : ReencryptionResponse)
    (capsules : List Capsule) (alice ursula policy bob : PublicKey) :
    Except CryptoError (List VerifiedCapsuleFrag) :=
  if r.cfrags.length ≠ capsules.length then .error .verificationFailed
  else if r.signature ≠ ⟨ursula, reencryptionBatchMessage capsules r.cfrags⟩
  then .error .verificationFailed
  else if (capsules.zip r.cfrags).all fun p =>
      p.2.verifies p.1 alice ursula policy bob then
    .ok r.cfrags
  else .error .verificationFailed

/-- The unsigned node fact record, with the fields of the constructor in
lib.rs lines 770 to 797. -/
structure NodeMetadataPayload where
  canonical_address : Address
  domain : Bytes
  timestamp_epoch : Nat
  verifying_key : PublicKey
  encrypting_key : PublicKey
  certificate_bytes : Bytes
  host : Bytes
  port : Nat
  decentralized_identity_evidence : Option Bytes
deriving DecidableEq

/-- A signed node announcement. -/
structure NodeMetadata where
  payload : NodeMetadataPayload
  signature : Signature
deriving DecidableEq

/-- Canonical key of an optional byte blob. -/
def optBytesKey : Option Bytes → Nat
  | none => 0
  | some b => natListKey b + 1

/-- Canonical key of a public key. -/
def publicKeyKey (k : PublicKey) : Nat := natListKey k.data

/-- Canonical key of a node payload: the address first, then every other
field, combined injectively. -/
def payloadKey (p : NodeMetadataPayload) : Nat :=
  Nat.pair (natListKey p.canonical_address.val)
    (Nat.pair (natListKey p.domain)
      (Nat.pair p.timestamp_epoch
        (Nat.pair (publicKeyKey p.verifying_key)
          (Nat.pair (publicKeyKey p.encrypting_key)
            (Nat.pair (natListKey p.certificate_bytes)
              (Nat.pair (natListKey p.host)
                (Nat.pair p.port
                  (optBytesKey p.decentralized_identity_evidence))))))))

/-- Canonical key of a signature. -/
def signatureKey (s : Signature) : Nat :=
  Nat.pair (publicKeyKey s.by_key) (natListKey s.message)

/-- Modelled from the spec: the canonical serialization key of a node
announcement, led by its address; injective, so any change to any field
of the node changes it. -/
def nodeKey (n : NodeMetadata) : Nat :=
  Nat.pair (payloadKey n.payload) (signatureKey n.signature)

/-- Modelled from the spec: the fleet-state digest over the canonically
ordered node set built from the optional self record and the peer list;
the node keys are sorted and fed to the injective ideal digest. -/
def FleetStateChecksum.from_nodes (this_node : Option NodeMetadata)
    (other_nodes : List NodeMetadata) : Nat :=
  natListKey (List.insertionSort (· ≤ ·)
    ((this_node.toList ++ other_nodes).map nodeKey))

/-- The re-encryption request of lib.rs lines 458 to 528, with the fields
of the backing core object. -/
structure ReencryptionRequest where
  capsules : List Capsule
  hrac : HRAC
  encrypted_kfrag : EncryptedKeyFrag
  publisher_verifying_key : PublicKey
  bob_verifying_key : PublicKey
deriving DecidableEq

/-- The encrypted application payload: capsule plus symmetric
ciphertext. -/
structure MessageKit where
  capsule : Capsule
  ciphertext : Bytes
deriving DecidableEq

/-- Modelled from the spec: decryption errors of the message kit,
InsufficientFragments below threshold and CryptoError otherwise. -/
inductive DecryptionError where
  | InsufficientFragments
  | CryptoError
deriving DecidableEq, Repr

/-- Modelled from the spec: reencrypted decryption; it fails with
InsufficientFragments when fewer fragments than the threshold of their
key split are supplied, returns the payload when the fragments agree
with the kit capsule, the policy key and the caller key, and fails with
a CryptoError otherwise. -/
def MessageKit.decrypt_reencrypted (mk : MessageKit) (sk : SecretKey)
    (policy_encrypting_key : PublicKey)
    (cfrags : List VerifiedCapsuleFrag) : Except DecryptionError Bytes :=
  if cfrags.isEmpty then .error .InsufficientFragments
  else if cfrags.any fun f => cfrags.length < f.threshold then
    .error .InsufficientFragments
  else if cfrags.all fun f =>
      decide (f.capsule = mk.capsule)
        && decide (f.policy_encrypting_key = policy_encrypting_key)
        && decide (f.bob_encrypting_key = sk.publicKey) then
    .ok mk.ciphertext
  else .error .CryptoError

/-- Outcome of a call through the WASM boundary: a value, a thrown JS
error, or an aborted process. -/
inductive WasmOutcome (α : Type) where
  | ok (value : α)
  | jsError (msg : String)
  | panicked (msg : String)
deriving DecidableEq, Repr

/-- Maps a fallible parser over a list the way a Rust collect over an
unwrapped parse does: the first failure aborts the whole traversal. -/
def mapUnwrap {α β : Type} (f : α → Option β) : List α → Option (List β)
  | [] => some []
  | x :: t =>
    match f x with
    | none => none
    | some y => (mapUnwrap f t).map (y :: ·)

/-- Embeds lib.rs lines 459 to 483: the WASM ReencryptionRequest
constructor; the input gate propagates a JS error, while the unwrap on
capsule parsing aborts the process on malformed capsule bytes. -/
def wasmReencryptionRequestNew (capsules : List JsValue) (hrac : HRAC)
    (encrypted_kfrag : EncryptedKeyFrag)
    (publisher_verifying_key bob_verifying_key : PublicKey) :
    WasmOutcome ReencryptionRequest :=
  match js_value_to_u8_vec capsules with
  | .error e => .jsError e
  | .ok byte_lists =>
    match mapUnwrap Capsule.from_bytes byte_lists with
    | none => .panicked "called unwrap on an Err value"
    | some caps =>
      .ok ⟨caps, hrac, encrypted_kfrag, publisher_verifying_key,
        bob_verifying_key⟩

/-- Message the binding attaches when mapping a typed backend error into
a JS error value. -/
def decryptionErrMsg : DecryptionError → String
  | .InsufficientFragments => "insufficient fragments"
  | .CryptoError => "decryption failed"

/-- Embeds lib.rs lines 117 to 139: the WASM decryptReencrypted method;
the expect call aborts the process on malformed fragment bytes, while
backend decryption errors are mapped to JS error values. -/
def wasmMessageKitDecryptReencrypted (mk : MessageKit) (sk : SecretKey)
    (policy_encrypting_key : PublicKey) (cfrags : List JsValue) :
    WasmOutcome Bytes :=
  match js_value_to_u8_vec cfrags with
  | .error e => .jsError e
  | .ok byte_lists =>
    match mapUnwrap VerifiedCapsuleFrag.from_verified_bytes byte_lists with
    | none => .panicked "Failed to deserialize VerifiedCapsuleFrag"
    | some fs =>
      match mk.decrypt_reencrypted sk policy_encrypting_key fs with
      | .error e => .jsError (decryptionErrMsg e)
      | .ok pt => .ok pt

/-- The into_serde conversion of a JS value into a Capsule, as used by
the WASM verify method. -/
def JsValue.intoSerdeCapsule : JsValue → Option Capsule
  | .capsuleObj d => some ⟨d⟩
  | _ => none

/-- Embeds lib.rs lines 583 to 616: the WASM ReencryptionResponse verify
method; the into_serde unwrap aborts on a non-capsule argument and the
unwrap on the backend result aborts the process whenever backend
verification fails. -/
def wasmReencryptionResponseVerify (r : ReencryptionResponse)
    (capsules : List JsValue) (alice ursula policy bob : PublicKey) :
    WasmOutcome (List VerifiedCapsuleFrag) :=
  match mapUnwrap JsValue.intoSerdeCapsule capsules with
  | none => .panicked "into_serde failed"
  | some caps =>
    match r.verify caps alice ursula policy bob with
    | .error _ => .panicked "called unwrap on an Err value"
    | .ok fs => .ok fs

/-- Fixture public key used by concrete witnesses. -/
def pk0 : PublicKey := ⟨[1, 2]⟩

/-- Fixture signer holding the second fixture key. -/
def signer1 : Signer := ⟨⟨[3]⟩⟩

/-- Second fixture public key. -/
def pk1 : PublicKey := ⟨[3]⟩

/-- Fixture secret key. -/
def sk0 : SecretKey := ⟨[7]⟩

/-- Fixture signer. -/
def signer0 : Signer := ⟨pk0⟩

/-- Fixture policy identifier. -/
def hrac0 : HRAC := HRAC.new pk0 pk1 [5]

/-- Fixture verified key fragment. -/
def vkf0 : VerifiedKeyFrag := ⟨[9]⟩

/-- Fixture encrypted key fragment. -/
def ekf0 : EncryptedKeyFrag := EncryptedKeyFrag.new signer0 pk1 hrac0 vkf0

/-- Fixture 20-byte address. -/
def addr0 : Address := ⟨List.replicate 20 0, by simp⟩

/-- Second fixture address. -/
def addr1 : Address := ⟨List.replicate 20 1, by simp⟩

/-- Fixture capsule. -/
def cap0 : Capsule := ⟨[4, 2]⟩

/-- Fixture capsule fragment that verifies against cap0 and the fixture
keys. -/
def cfrag0 : VerifiedCapsuleFrag := ⟨cap0, pk0, pk1, pk0, pk1, 1, [8]⟩

/-- Fixture message kit. -/
def mk0 : MessageKit := ⟨cap0, [1, 1]⟩

/-- Fixture node announcement at addr0. -/
def node0 : NodeMetadata :=
  ⟨⟨addr0, [10], 3, pk0, pk1, [], [11], 80, none⟩, ⟨pk0, [1]⟩⟩

/-- Fixture node announcement at addr1. -/
def node1 : NodeMetadata :=
  ⟨⟨addr1, [12], 4, pk1, pk0, [2], [13], 81, some [6]⟩, ⟨pk1, [2]⟩⟩

/-- Variant of node1 with one payload field changed (the port). -/
def node1p : NodeMetadata :=
  ⟨⟨addr1, [12], 4, pk1, pk0, [2], [13], 82, some [6]⟩, ⟨pk1, [2]⟩⟩

theorem decBytes_encBytes (b r : Bytes) :
    decBytes (encBytes b ++ r) = some (b, r) := by
  simp [decBytes, encBytes, List.take_left, List.drop_left]

theorem decOpt_encOpt (o : Option Bytes) (r : Bytes) :
    decOpt (encOpt o ++ r) = some (o, r) := by
  cases o with
  | none => simp [decOpt, encOpt]
  | some b => simp [decOpt, encOpt, decBytes_encBytes]

theorem decVariant_tag (v : FerveoVariant) (r : Bytes) :
    decVariant (v.tag :: r) = some (v, r) := by
  cases v <;> simp [decVariant, FerveoVariant.tag]

theorem option_conditions_eta (o : Option Conditions) :
    (o.map Conditions.blob).map Conditions.mk = o := by
  cases o <;> rfl

theorem option_context_eta (o : Option Context) :
    (o.map Context.blob).map Context.mk = o := by
  cases o <;> rfl

theorem conditions_comp_eta :
    (Conditions.mk ∘ Conditions.blob) = id := funext fun _ => rfl

theorem context_comp_eta :
    (Context.mk ∘ Context.blob) = id := funext fun _ => rfl

theorem req_payload_roundtrip (x : ThresholdDecryptionRequest) :
    ThresholdDecryptionRequest.messagepack_deserialize
      x.unversioned_to_bytes = .ok x := by
  simp [ThresholdDecryptionRequest.unversioned_to_bytes,
    ThresholdDecryptionRequest.messagepack_deserialize, List.append_assoc,
    decBytes_encBytes, decOpt_encOpt, decVariant_tag,
    option_conditions_eta, option_context_eta,
    conditions_comp_eta, context_comp_eta]

theorem resp_payload_roundtrip (x : ThresholdDecryptionResponse) :
    ThresholdDecryptionResponse.messagepack_deserialize
      x.unversioned_to_bytes = .ok x := by
  simp [ThresholdDecryptionResponse.unversioned_to_bytes,
    ThresholdDecryptionResponse.messagepack_deserialize,
    decBytes, encBytes]

theorem req_envelope_roundtrip (x : ThresholdDecryptionRequest) :
    ThresholdDecryptionRequest.from_bytes x.to_bytes = .ok x := by
  simp [ThresholdDecryptionRequest.to_bytes,
    ThresholdDecryptionRequest.from_bytes, headerEnc, u16le,
    ThresholdDecryptionRequest.brand, ThresholdDecryptionRequest.version,
    envelope_from_bytes, ThresholdDecryptionRequest.unversioned_from_bytes,
    req_payload_roundtrip]

theorem resp_envelope_roundtrip (x : ThresholdDecryptionResponse) :
    ThresholdDecryptionResponse.from_bytes x.to_bytes = .ok x := by
  simp [ThresholdDecryptionResponse.to_bytes,
    ThresholdDecryptionResponse.from_bytes, headerEnc, u16le,
    ThresholdDecryptionResponse.brand, ThresholdDecryptionResponse.version,
    envelope_from_bytes, ThresholdDecryptionResponse.unversioned_from_bytes,
    resp_payload_roundtrip]

theorem natListKey_inj : ∀ a b : Bytes, natListKey a = natListKey b → a = b := by
  intro a
  induction a with
  | nil =>
    intro b h
    cases b with
    | nil => rfl
    | cons y u => simp [natListKey] at h
  | cons x t ih =>
    intro b h
    cases b with
    | nil => simp [natListKey] at h
    | cons y u =>
      simp only [natListKey, Nat.add_right_cancel_iff] at h
      obtain ⟨h1, h2⟩ := Nat.pair_eq_pair.mp h
      rw [h1, ih u h2]

theorem publicKeyKey_inj : ∀ a b : PublicKey,
    publicKeyKey a = publicKeyKey b → a = b := by
  intro ⟨x⟩ ⟨y⟩ h
  simpa using natListKey_inj x y h

theorem optBytesKey_inj : ∀ a b : Option Bytes,
    optBytesKey a = optBytesKey b → a = b := by
  intro a b h
  cases a with
  | none =>
    cases b with
    | none => rfl
    | some y => simp [optBytesKey] at h
  | some x =>
    cases b with
    | none => simp [optBytesKey] at h
    | some y =>
      simp only [optBytesKey, Nat.add_right_cancel_iff] at h
      rw [natListKey_inj x y h]

theorem payloadKey_inj : ∀ a b : NodeMetadataPayload,
    payloadKey a = payloadKey b → a = b := by
  intro a b h
  simp only [payloadKey] at h
  obtain ⟨h1, h⟩ := Nat.pair_eq_pair.mp h
  obtain ⟨h2, h⟩ := Nat.pair_eq_pair.mp h
  obtain ⟨h3, h⟩ := Nat.pair_eq_pair.mp h
  obtain ⟨h4, h⟩ := Nat.pair_eq_pair.mp h
  obtain ⟨h5, h⟩ := Nat.pair_eq_pair.mp h
  obtain ⟨h6, h⟩ := Nat.pair_eq_pair.mp h
  obtain ⟨h7, h⟩ := Nat.pair_eq_pair.mp h
  obtain ⟨h8, h9⟩ := Nat.pair_eq_pair.mp h
  cases a; cases b
  simp only [NodeMetadataPayload.mk.injEq]
  exact ⟨Subtype.ext (natListKey_inj _ _ h1), natListKey_inj _ _ h2, h3,
    publicKeyKey_inj _ _ h4, publicKeyKey_inj _ _ h5,
    natListKey_inj _ _ h6, natListKey_inj _ _ h7, h8,
    optBytesKey_inj _ _ h9⟩

theorem signatureKey_inj : ∀ a b : Signature,
    signatureKey a = signatureKey b → a = b := by
  intro ⟨k1, m1⟩ ⟨k2, m2⟩ h
  simp only [signatureKey] at h
  obtain ⟨h1, h2⟩ := Nat.pair_eq_pair.mp h
  rw [publicKeyKey_inj _ _ h1, natListKey_inj _ _ h2]

theorem nodeKey_inj : ∀ a b : NodeMetadata, nodeKey a = nodeKey b → a = b := by
  intro ⟨p1, s1⟩ ⟨p2, s2⟩ h
  simp only [nodeKey] at h
  obtain ⟨h1, h2⟩ := Nat.pair_eq_pair.mp h
  rw [payloadKey_inj _ _ h1, signatureKey_inj _ _ h2]

theorem filterMap_map_uint8array (l : List Bytes) :
    (l.map JsValue.uint8array).filterMap JsValue.asUint8Array = l := by
  induction l with
  | nil => rfl
  | cons x t ih => simp [JsValue.asUint8Array, ih]

theorem filterMap_length_eq_all_some (arr : List JsValue) :
    (arr.filterMap JsValue.asUint8Array).length = arr.length →
      arr = (arr.filterMap JsValue.asUint8Array).map JsValue.uint8array := by
  induction arr with
  | nil => intro _; rfl
  | cons x t ih =>
    intro h
    cases x with
    | uint8array b =>
      simp only [List.filterMap_cons, JsValue.asUint8Array, List.length_cons,
        List.map_cons] at h ⊢
      exact congrArg (fun l => JsValue.uint8array b :: l)
        (ih (Nat.succ_injective h))
    | capsuleObj d =>
      exfalso
      simp only [List.filterMap_cons, JsValue.asUint8Array,
        List.length_cons] at h
      have := List.length_filterMap_le JsValue.asUint8Array t
      omega
    | other g =>
      exfalso
      simp only [List.filterMap_cons, JsValue.asUint8Array,
        List.length_cons] at h
      have := List.length_filterMap_le JsValue.asUint8Array t
      omega

theorem insertionSort_nat_eq_of_perm {l1 l2 : List Nat} (h : l1.Perm l2) :
    List.insertionSort (· ≤ ·) l1 = List.insertionSort (· ≤ ·) l2 :=
  List.eq_of_perm_of_sorted
    ((List.perm_insertionSort _ l1).trans
      (h.trans (List.perm_insertionSort _ l2).symm))
    (List.sorted_insertionSort _ l1) (List.sorted_insertionSort _ l2)

theorem perm_of_insertionSort_nat_eq {l1 l2 : List Nat}
    (h : List.insertionSort (· ≤ ·) l1 = List.insertionSort (· ≤ ·) l2) :
    l1.Perm l2 :=
  (List.perm_insertionSort _ l1).symm.trans
    (h ▸ List.perm_insertionSort (· ≤ ·) l2)

theorem filterMap_length_of_all_some (arr : List JsValue) :
    (∀ x ∈ arr, (JsValue.asUint8Array x).isSome) →
      (arr.filterMap JsValue.asUint8Array).length = arr.length := by
  induction arr with
  | nil => intro _; rfl
  | cons x t ih =>
    intro h
    have ht := ih fun y hy => h y (List.mem_cons_of_mem _ hy)
    cases x with
    | uint8array b =>
      simp [List.filterMap_cons, JsValue.asUint8Array, ht]
    | capsuleObj d =>
      have := h _ (List.mem_cons_self _ _)
      simp [JsValue.asUint8Array] at this
    | other g =>
      have := h _ (List.mem_cons_self _ _)
      simp [JsValue.asUint8Array] at this

/-- C1: for every signer, hrac, policy encrypting key and assignment
list, TreasureMap construction fails with a PolicyError and produces no
object when the threshold exceeds the number of assignments, and
succeeds otherwise, recording the threshold and one destination per
assignment. -/
theorem treasure_map_new_threshold_policy
    (signer : Signer) (hrac : HRAC) (pk : PublicKey)
    (assigned_kfrags : List (Address × (PublicKey × VerifiedKeyFrag)))
    (threshold : Nat) :
    (assigned_kfrags.length < threshold →
      TreasureMap.new signer hrac pk assigned_kfrags threshold
        = .error .thresholdTooLarge) ∧
    (threshold ≤ assigned_kfrags.length →
      ∃ tm, TreasureMap.new signer hrac pk assigned_kfrags threshold
          = .ok tm
        ∧ tm.threshold = threshold
        ∧ tm.destinations.length = assigned_kfrags.length) := by
  constructor
  · intro h
    simp only [TreasureMap.new, if_neg (Nat.not_le.mpr h)]
  · intro h
    simp only [TreasureMap.new, if_pos h]
    exact ⟨_, rfl, rfl,
      ((List.perm_insertionSort destLE _).length_eq).trans
        (by simp)⟩

/-- C1 witness: the theorem applied at an empty assignment list with
threshold 1, and at a single assignment with threshold 1. -/
theorem treasure_map_new_threshold_policy_witness :
    TreasureMap.new signer0 hrac0 pk0 [] 1 = .error .thresholdTooLarge ∧
    ∃ tm, TreasureMap.new signer0 hrac0 pk0 [(addr0, (pk1, vkf0))] 1
        = .ok tm ∧ tm.threshold = 1 ∧ tm.destinations.length = 1 :=
  ⟨(treasure_map_new_threshold_policy signer0 hrac0 pk0 [] 1).1
      (by decide),
    (treasure_map_new_threshold_policy signer0 hrac0 pk0
      [(addr0, (pk1, vkf0))] 1).2 (by decide)⟩

/-- C8: HRAC construction is a deterministic pure function of the two
verifying keys and the label, and its byte form always has exactly 16
bytes. -/
theorem hrac_deterministic_sixteen_bytes
    (publisher bob : PublicKey) (label : Bytes) :
    HRAC.new publisher bob label = HRAC.new publisher bob label ∧
    (HRAC.new publisher bob label).to_bytes.length = 16 := by
  refine ⟨rfl, ?_⟩
  simp [HRAC.new, HRAC.to_bytes, modelHash]

/-- C9: the threshold-decryption request and response register fixed
4-byte ASCII brands, ThRq and ThRs respectively, and the two brands are
distinct. -/
theorem threshold_decryption_brands :
    ThresholdDecryptionRequest.brand.length = 4 ∧
    ThresholdDecryptionResponse.brand.length = 4 ∧
    (∀ b ∈ ThresholdDecryptionRequest.brand, b < 128) ∧
    (∀ b ∈ ThresholdDecryptionResponse.brand, b < 128) ∧
    ThresholdDecryptionRequest.brand = [84, 104, 82, 113] ∧
    ThresholdDecryptionResponse.brand = [84, 104, 82, 115] ∧
    ThresholdDecryptionRequest.brand ≠ ThresholdDecryptionResponse.brand := by
  decide

/-- C2: verification of a reencryption response is all-or-nothing: a
response signed by the proxy over matching capsule and fragment counts
verifies to the full fragment list when every fragment verifies against
its positional capsule and the four keys, while any single failing
fragment rejects the whole call with a CryptoError and no subset of
fragments is returned. -/
theorem reencryption_response_verify_all_or_nothing :
    (∀ (signer : Signer) (capsules : List Capsule)
        (cfrags : List VerifiedCapsuleFrag) (alice policy bob : PublicKey),
      capsules.length = cfrags.length →
      ((capsules.zip cfrags).all fun p =>
          p.2.verifies p.1 alice signer.verifying_key policy bob) = true →
      (ReencryptionResponse.new signer capsules cfrags).verify capsules
        alice signer.verifying_key policy bob = .ok cfrags) ∧
    (∀ (r : ReencryptionResponse) (capsules : List Capsule)
        (alice ursula policy bob : PublicKey),
      ¬ ((capsules.zip r.cfrags).all fun p =>
          p.2.verifies p.1 alice ursula policy bob) = true →
      r.verify capsules alice ursula policy bob
        = .error .verificationFailed) := by
  constructor
  · intro signer capsules cfrags alice policy bob hlen hall
    simp [ReencryptionResponse.verify, ReencryptionResponse.new, hlen, hall]
  · intro r capsules alice ursula policy bob hfail
    by_cases h1 : r.cfrags.length ≠ capsules.length
    · simp [ReencryptionResponse.verify, h1]
    · by_cases h2 : r.signature
          ≠ ⟨ursula, reencryptionBatchMessage capsules r.cfrags⟩
      · simp [ReencryptionResponse.verify, h1, h2]
      · simp [ReencryptionResponse.verify, h1, h2, hfail]

/-- C2 witness: a one-capsule response by the fixture proxy verifies to
its fragment list, and a response whose single fragment fails
verification is rejected whole. -/
theorem reencryption_response_verify_all_or_nothing_witness :
    (ReencryptionResponse.new signer1 [cap0] [cfrag0]).verify [cap0]
      pk0 signer1.verifying_key pk0 pk1 = .ok [cfrag0] ∧
    (ReencryptionResponse.new signer1 [cap0] [cfrag0]).verify [cap0]
      pk1 signer1.verifying_key pk0 pk1 = .error .verificationFailed :=
  ⟨reencryption_response_verify_all_or_nothing.1 signer1 [cap0] [cfrag0]
      pk0 pk0 pk1 (by decide) (by decide),
    reencryption_response_verify_all_or_nothing.2
      (ReencryptionResponse.new signer1 [cap0] [cfrag0]) [cap0]
      pk1 signer1.verifying_key pk0 pk1 (by decide)⟩

/-- C3: contrary to the claim, the WASM bindings abort the process on
invalid input: the ReencryptionRequest constructor panics on malformed
capsule bytes, decryptReencrypted panics on malformed fragment bytes,
and the verify method panics whenever backend verification fails,
instead of returning typed errors. -/
theorem wasm_bindings_panic_on_invalid_input :
    wasmReencryptionRequestNew [JsValue.uint8array []] hrac0 ekf0 pk0 pk1
      = .panicked "called unwrap on an Err value" ∧
    wasmMessageKitDecryptReencrypted mk0 sk0 pk0 [JsValue.uint8array []]
      = .panicked "Failed to deserialize VerifiedCapsuleFrag" ∧
    wasmReencryptionResponseVerify (ReencryptionResponse.new signer0 [] [])
      [JsValue.capsuleObj [1]] pk0 pk0 pk0 pk0
      = .panicked "called unwrap on an Err value" :=
  ⟨rfl, rfl, rfl⟩

/-- C4: for the threshold-decryption request and response at current
version (1,0), the minor-version dispatch yields a parser exactly for
minor version 0, and for every greater minor (within the u16 range) the
envelope decoder fails with a VersionError. -/
theorem threshold_decryption_minor_version_dispatch :
    (∀ m bytes,
      (ThresholdDecryptionRequest.unversioned_from_bytes m bytes).isSome
        ↔ m = 0) ∧
    (∀ m bytes,
      (ThresholdDecryptionResponse.unversioned_from_bytes m bytes).isSome
        ↔ m = 0) ∧
    (∀ m payload, 0 < m → m < 65536 →
      ThresholdDecryptionRequest.from_bytes
        (headerEnc ThresholdDecryptionRequest.brand 1 m ++ payload)
          = .error .VersionError) ∧
    (∀ m payload, 0 < m → m < 65536 →
      ThresholdDecryptionResponse.from_bytes
        (headerEnc ThresholdDecryptionResponse.brand 1 m ++ payload)
          = .error .VersionError) := by
  refine ⟨?_, ?_, ?_, ?_⟩
  · intro m bytes
    by_cases h : m = 0 <;>
      simp [ThresholdDecryptionRequest.unversioned_from_bytes, h]
  · intro m bytes
    by_cases h : m = 0 <;>
      simp [ThresholdDecryptionResponse.unversioned_from_bytes, h]
  · intro m payload h1 h2
    have hm : ¬ (m % 256 + 256 * (m / 256 % 256) = 0) := by omega
    simp [ThresholdDecryptionRequest.from_bytes, headerEnc, u16le,
      ThresholdDecryptionRequest.brand, ThresholdDecryptionRequest.version,
      envelope_from_bytes, ThresholdDecryptionRequest.unversioned_from_bytes,
      hm]
  · intro m payload h1 h2
    have hm : ¬ (m % 256 + 256 * (m / 256 % 256) = 0) := by omega
    simp [ThresholdDecryptionResponse.from_bytes, headerEnc, u16le,
      ThresholdDecryptionResponse.brand,
      ThresholdDecryptionResponse.version, envelope_from_bytes,
      ThresholdDecryptionResponse.unversioned_from_bytes, hm]

/-- C4 witness: the theorem applied at minor version 1 with an empty
payload, for both message types. -/
theorem threshold_decryption_minor_version_dispatch_witness :
    ThresholdDecryptionRequest.from_bytes
      (headerEnc ThresholdDecryptionRequest.brand 1 1 ++ [])
        = .error .VersionError ∧
    ThresholdDecryptionResponse.from_bytes
      (headerEnc ThresholdDecryptionResponse.brand 1 1 ++ [])
        = .error .VersionError :=
  ⟨threshold_decryption_minor_version_dispatch.2.2.1 1 [] (by decide)
      (by decide),
    threshold_decryption_minor_version_dispatch.2.2.2 1 [] (by decide)
      (by decide)⟩

/-- C5: decoding the encoding of any threshold-decryption request (any
ritual id, ciphertext, optional conditions and context, either variant)
and of any threshold-decryption response returns the original value. -/
theorem threshold_decryption_roundtrip :
    (∀ x : ThresholdDecryptionRequest,
      ThresholdDecryptionRequest.from_bytes x.to_bytes = .ok x) ∧
    (∀ x : ThresholdDecryptionResponse,
      ThresholdDecryptionResponse.from_bytes x.to_bytes = .ok x) :=
  ⟨req_envelope_roundtrip, resp_envelope_roundtrip⟩

/-- C6: the address factory accepts a byte slice exactly when its length
is 20, returns the bytes verbatim on success, and rejects every other
length with the invalid-address error. -/
theorem try_make_address_length_check (s : Bytes) :
    ((try_make_address s).isOk ↔ s.length = 20) ∧
    (∀ a, try_make_address s = .ok a → a.val = s) ∧
    (s.length ≠ 20 → try_make_address s = .error "Invalid address") := by
  by_cases h : s.length = 20
  · refine ⟨by simp [try_make_address, Address.from_slice, h, Except.isOk, Except.toBool],
      ?_, fun hn => absurd h hn⟩
    intro a ha
    simp only [try_make_address, Address.from_slice, dif_pos h] at ha
    cases ha
    rfl
  · refine ⟨by simp [try_make_address, Address.from_slice, h, Except.isOk, Except.toBool],
      ?_, fun _ => by simp [try_make_address, Address.from_slice, h]⟩
    intro a ha
    simp [try_make_address, Address.from_slice, h] at ha

/-- C6 witness: the theorem applied at a 20-byte slice and at a 1-byte
slice. -/
theorem try_make_address_length_check_witness :
    ((try_make_address (List.replicate 20 3)).isOk
      ↔ (List.replicate 20 3 : Bytes).length = 20) ∧
    (⟨List.replicate 20 3, by simp⟩ : Address).val = List.replicate 20 3 ∧
    try_make_address [1] = .error "Invalid address" :=
  ⟨(try_make_address_length_check (List.replicate 20 3)).1,
    (try_make_address_length_check (List.replicate 20 3)).2.1 _ (by rfl),
    (try_make_address_length_check [1]).2.2 (by decide)⟩

/-- C7: the fleet-state checksum is order-independent, any permutation of
the other-node list yields an identical checksum, and content-sensitive:
replacing a node by a different node (any changed field) changes the
checksum. -/
theorem fleet_state_checksum_order_independent :
    (∀ (a : Option NodeMetadata) (ns ns2 : List NodeMetadata),
      ns.Perm ns2 →
      FleetStateChecksum.from_nodes a ns
        = FleetStateChecksum.from_nodes a ns2) ∧
    (∀ (a : Option NodeMetadata) (b c b2 : NodeMetadata), b ≠ b2 →
      FleetStateChecksum.from_nodes a [b, c]
        ≠ FleetStateChecksum.from_nodes a [b2, c]) := by
  constructor
  · intro a ns ns2 h
    simp only [FleetStateChecksum.from_nodes, List.map_append]
    exact congrArg natListKey
      (insertionSort_nat_eq_of_perm ((h.map nodeKey).append_left _))
  · intro a b c b2 hne heq
    simp only [FleetStateChecksum.from_nodes, List.map_append] at heq
    have hsort := natListKey_inj _ _ heq
    have hperm := perm_of_insertionSort_nat_eq hsort
    have h0 : (↑(a.toList.map nodeKey ++ [b, c].map nodeKey)
          : Multiset Nat)
        = ↑(a.toList.map nodeKey ++ [b2, c].map nodeKey) :=
      Multiset.coe_eq_coe.mpr hperm
    rw [← Multiset.coe_add, ← Multiset.coe_add] at h0
    have hbc : (↑([b, c].map nodeKey) : Multiset Nat)
        = ↑([b2, c].map nodeKey) := add_left_cancel h0
    simp only [List.map_cons, List.map_nil, Multiset.coe_singleton,
      ← Multiset.cons_coe] at hbc
    rcases Multiset.cons_eq_cons.mp hbc with ⟨h1, _⟩ | ⟨_, cs, h2, h3⟩
    · exact hne (nodeKey_inj _ _ h1)
    · have e2 := (Multiset.singleton_eq_cons_iff _).mp h2
      have e3 := (Multiset.singleton_eq_cons_iff _).mp h3
      exact hne (nodeKey_inj _ _ (e3.1.symm.trans e2.1))

/-- C7 witness: the theorem applied at the fixture nodes, swapping the
two peers and changing one payload field of a peer. -/
theorem fleet_state_checksum_order_independent_witness :
    FleetStateChecksum.from_nodes (some node0) [node0, node1]
      = FleetStateChecksum.from_nodes (some node0) [node1, node0] ∧
    FleetStateChecksum.from_nodes none [node1, node0]
      ≠ FleetStateChecksum.from_nodes none [node1p, node0] :=
  ⟨fleet_state_checksum_order_independent.1 (some node0) [node0, node1]
      [node1, node0] (List.Perm.swap node1 node0 []),
    fleet_state_checksum_order_independent.2 none node1 node0 node1p
      (by decide)⟩

/-- C10: the byte-array input gate succeeds exactly when every element of
the input is a Uint8Array, in which case the result is the list of their
byte contents in order; otherwise the whole call returns an error and no
partial list is produced. -/
theorem js_value_to_u8_vec_gate (arr : List JsValue) :
    (∀ l, js_value_to_u8_vec arr = .ok l
      ↔ arr = l.map JsValue.uint8array) ∧
    ((js_value_to_u8_vec arr).isOk
      ↔ ∀ x ∈ arr, (JsValue.asUint8Array x).isSome) := by
  by_cases h : (arr.filterMap JsValue.asUint8Array).length = arr.length
  · have harr := filterMap_length_eq_all_some arr h
    have hok : js_value_to_u8_vec arr
        = .ok (arr.filterMap JsValue.asUint8Array) := by
      simp only [js_value_to_u8_vec]
      exact if_neg (not_not_intro h)
    constructor
    · intro l
      constructor
      · intro hl
        rw [hok] at hl
        cases hl
        exact harr
      · intro hl
        rw [hok, hl, filterMap_map_uint8array]
    · constructor
      · intro _ x hx
        rw [harr] at hx
        rcases List.mem_map.mp hx with ⟨b, _, rfl⟩
        rfl
      · intro _
        rw [hok]
        rfl
  · have herr : js_value_to_u8_vec arr
        = .error "Invalid Array of Uint8Arrays." := by
      simp only [js_value_to_u8_vec]
      exact if_pos h
    constructor
    · intro l
      constructor
      · intro hl
        rw [herr] at hl
        exact Except.noConfusion hl
      · intro hl
        exfalso
        apply h
        rw [hl, filterMap_map_uint8array, List.length_map]
    · rw [herr]
      constructor
      · intro hk
        simp [Except.isOk, Except.toBool] at hk
      · intro hall
        exact absurd (filterMap_length_of_all_some arr hall) h

end NucypherCore
